import Mathlib

/-!
Verification of the event-sourced weather monitoring domain model
(registrar aggregate, location-zone aggregates, and the update-weather saga).

The definitions below are a shallow embedding of the Rust sources:
  * src/model/mod.rs        - QualityControl and its ordering
  * src/model/frame.rs      - QuantitativeAggregation (feature-collection aggregation)
  * src/model/registrar/…   - Registrar state and commands
  * src/model/weather.rs    - WeatherEvent
  * src/model/weather/zone/…   - zone state slices and commands
  * src/model/weather/update/… - saga status, state machine and commands

Rust `Decimal` values are modelled as `Int` (only +, min, max are used by the
embedded operations), hash-based containers as association lists / lists with
set-like operations, and event payload types (WeatherFrame, ZoneForecast,
WeatherAlert) as type parameters, since the embedded code never inspects them.
-/

/-- Quality-control grade of an observation (model/mod.rs, enum QualityControl). -/
inductive QualityControl where
  | V | G | S | C | Z | Q | T | B | X
deriving DecidableEq

/-- Numeric rank of a grade (model/mod.rs, QualityControl::level). -/
def QualityControl.level : QualityControl → Nat
  | .V => 9
  | .G => 8
  | .S => 7
  | .C => 6
  | .Z => 5
  | .Q => 4
  | .T => 3
  | .B => 2
  | .X => 1

/-- Total order on grades (model/mod.rs, Ord for QualityControl):
compares the numeric levels. -/
def QualityControl.cmp (a b : QualityControl) : Ordering :=
  compare a.level b.level

/-- One quantitative property reading parsed out of a geojson feature
(model/frame.rs, struct PropertyDetail); `value` is a Decimal modelled as Int. -/
structure PropertyDetail where
  value : Option Int
  unit_code : String
  quality_control : Option QualityControl
deriving DecidableEq

/-- Running aggregation of readings of one quantitative property
(model/frame.rs, struct QuantitativeAggregation). -/
structure QuantitativeAggregation where
  count : Nat
  value_sum : Int
  max_value : Int
  min_value : Int
  unit_code : String
  quality_control : QualityControl
deriving DecidableEq

/-- model/frame.rs, QuantitativeAggregation::new. -/
def QuantitativeAggregation.new (detail : PropertyDetail) : QuantitativeAggregation :=
  { count := 1
  , value_sum := detail.value.getD 0
  , max_value := detail.value.getD 0
  , min_value := detail.value.getD 0
  , unit_code := detail.unit_code
  , quality_control := detail.quality_control.getD .X }

/-- model/frame.rs, QuantitativeAggregation::add_detail.  The match mirrors the
source: `self.quality_control.cmp(&quality)` with Less ignoring the incoming
detail, Greater resetting the aggregation to the incoming detail, and Equal
combining count/sum/min/max. -/
def QuantitativeAggregation.add_detail
    (agg : QuantitativeAggregation) (detail : PropertyDetail) : QuantitativeAggregation :=
  match detail.value, detail.quality_control with
  | some value, some quality =>
    match agg.quality_control.cmp quality with
    | .lt => agg
    | .gt =>
      { agg with
        count := 1
        value_sum := value
        max_value := value
        min_value := value
        quality_control := quality }
    | .eq =>
      { agg with
        count := agg.count + 1
        value_sum := agg.value_sum + value
        max_value := max value agg.max_value
        min_value := min value agg.min_value }
  | _, _ => agg

/-- Event family shared by the zone and saga aggregates (model/weather.rs,
enum WeatherEvent); `ω`, `φ`, `α` stand for the WeatherFrame, ZoneForecast and
WeatherAlert payload types, which the embedded code never inspects. -/
inductive WeatherEvent (ω φ α : Type) where
  | observationUpdated (zone : String) (update_id : String) (weather : ω)
  | forecastUpdated (zone : String) (update_id : String) (forecast : φ)
  | alertActivated (zone : String) (update_id : String) (alert : α)
  | alertDeactivated (zone : String) (update_id : String)
  | updateStarted (update_id : String) (zones : List String)
  | alertsReviewed (update_id : String)
  | updateLocationFailed (update_id : String) (zone : String) (cause : String)
deriving DecidableEq

/-- One saga step of a zone update (model/weather/update/status.rs, enum UpdateStep). -/
inductive UpdateStep where
  | observation
  | forecast
  | alert
deriving DecidableEq

/-- Bitflag set of completed steps (model/weather/update/status.rs, UpdateSteps). -/
structure UpdateSteps where
  observation : Bool
  forecast : Bool
  alert : Bool
deriving DecidableEq

/-- The empty step set (BitFlags::default). -/
def UpdateSteps.empty : UpdateSteps := ⟨false, false, false⟩

/-- Setting one step flag (the `completed | step` bit-or in the source). -/
def UpdateSteps.insert (c : UpdateSteps) : UpdateStep → UpdateSteps
  | .observation => { c with observation := true }
  | .forecast => { c with forecast := true }
  | .alert => { c with alert := true }

/-- Per-zone progress of one saga run
(model/weather/update/status.rs, enum LocationUpdateStatus). -/
inductive LocationUpdateStatus where
  | inProgress (completed : UpdateSteps)
  | succeeded
  | failed
deriving DecidableEq

/-- Default status (LocationUpdateStatus::default): in progress with no steps. -/
def LocationUpdateStatus.start : LocationUpdateStatus := .inProgress .empty

/-- status.rs, LocationUpdateStatus::sufficient_steps: observation and forecast
are both recorded. -/
def LocationUpdateStatus.sufficient_steps (completed : UpdateSteps) : Bool :=
  completed.observation && completed.forecast

/-- status.rs, LocationUpdateStatus::advance. -/
def LocationUpdateStatus.advance : LocationUpdateStatus → UpdateStep → LocationUpdateStatus
  | .succeeded, _ => .succeeded
  | .failed, _ => .failed
  | .inProgress completed, step =>
    let new_completed := completed.insert step
    if sufficient_steps new_completed then .succeeded else .inProgress new_completed

/-- status.rs, LocationUpdateStatus::is_completed. -/
def LocationUpdateStatus.is_completed : LocationUpdateStatus → Bool
  | .inProgress completed => sufficient_steps completed
  | _ => true

/-- status.rs, LocationUpdateStatus::is_active. -/
def LocationUpdateStatus.is_active (s : LocationUpdateStatus) : Bool :=
  !s.is_completed

/-- True exactly on the InProgress constructor (the pattern used by
WeatherUpdateStatus::active_zones, independent of sufficient_steps). -/
def LocationUpdateStatus.is_in_progress : LocationUpdateStatus → Bool
  | .inProgress _ => true
  | _ => false

/-- The zone-keyed status container (model/weather/update/location_status.rs,
MultiIndexLocationStatusMap with unique key `zone`), modelled as an association
list in insertion order. -/
abbrev LocationStatusMap := List (String × LocationUpdateStatus)

/-- location_status.rs map lookup (get_by_zone). -/
def LocationStatusMap.get_by_zone (m : LocationStatusMap) (zone : String) :
    Option LocationUpdateStatus :=
  (m.find? (fun p => p.1 == zone)).map Prod.snd

/-- location_status.rs map insert (appends, as the slab-backed map does). -/
def LocationStatusMap.insert (m : LocationStatusMap) (zone : String)
    (status : LocationUpdateStatus) : LocationStatusMap :=
  m ++ [(zone, status)]

/-- location_status.rs modify_by_zone: update the entry keyed by `zone`. -/
def LocationStatusMap.modify_by_zone (m : LocationStatusMap) (zone : String)
    (f : LocationUpdateStatus → LocationUpdateStatus) : LocationStatusMap :=
  m.map (fun p => if p.1 == zone then (p.1, f p.2) else p)

/-- Discriminant of the saga state returned by WeatherUpdateStatus::mutate
(model/weather/update/state.rs, UpdateWeatherStateDiscriminants). -/
inductive UpdateWeatherStateDiscriminants where
  | quiescent
  | active
  | finished
deriving DecidableEq

/-- Status of one running saga (model/weather/update/state.rs,
struct WeatherUpdateStatus). -/
structure WeatherUpdateStatus where
  location_statuses : LocationStatusMap
  alerts_reviewed : Bool
deriving DecidableEq

/-- state.rs, WeatherUpdateStatus::new: every started zone begins at the
default (in-progress, empty step set) status. -/
def WeatherUpdateStatus.new (zones : List String) : WeatherUpdateStatus :=
  { location_statuses :=
      zones.foldl (fun m z => LocationStatusMap.insert m z LocationUpdateStatus.start) []
  , alerts_reviewed := false }

/-- state.rs, WeatherUpdateStatus::status_for. -/
def WeatherUpdateStatus.status_for (s : WeatherUpdateStatus) (zone : String) :
    Option LocationUpdateStatus :=
  LocationStatusMap.get_by_zone s.location_statuses zone

/-- state.rs, WeatherUpdateStatus::active_zones: zones whose status matches the
InProgress constructor. -/
def WeatherUpdateStatus.active_zones (s : WeatherUpdateStatus) : List String :=
  (s.location_statuses.filter (fun p => p.2.is_in_progress)).map Prod.fst

/-- state.rs, WeatherUpdateStatus::is_only_active_zone. -/
def WeatherUpdateStatus.is_only_active_zone (s : WeatherUpdateStatus) (zone : String) : Bool :=
  (((s.status_for zone).map LocationUpdateStatus.is_active).getD false) &&
  ((s.location_statuses.filter (fun p => p.1 != zone)).all (fun p => p.2.is_completed))

/-- state.rs, WeatherUpdateStatus::prep_zone: an unknown zone is inserted with
the default status; a zone whose status is already completed short-circuits
with the Finished discriminant. -/
def WeatherUpdateStatus.prep_zone (s : WeatherUpdateStatus) (zone : String) :
    WeatherUpdateStatus × Option UpdateWeatherStateDiscriminants :=
  match s.status_for zone with
  | none =>
    ({ s with location_statuses :=
        s.location_statuses.insert zone LocationUpdateStatus.start }, none)
  | some status =>
    if status.is_completed then (s, some .finished) else (s, none)

/-- state.rs, WeatherUpdateStatus::advance_zone_step. -/
def WeatherUpdateStatus.advance_zone_step (s : WeatherUpdateStatus) (zone : String)
    (step : UpdateStep) : WeatherUpdateStatus × UpdateWeatherStateDiscriminants :=
  match s.prep_zone zone with
  | (s', some d) => (s', d)
  | (s', none) =>
    let is_only := s'.is_only_active_zone zone
    let m' := s'.location_statuses.modify_by_zone zone (fun st => st.advance step)
    let ls := (LocationStatusMap.get_by_zone m' zone).getD LocationUpdateStatus.start
    let s'' := { s' with location_statuses := m' }
    if s'.alerts_reviewed && is_only && ls.is_completed
    then (s'', .finished)
    else (s'', .active)

/-- state.rs, WeatherUpdateStatus::update_zone_failure_for. -/
def WeatherUpdateStatus.update_zone_failure_for (s : WeatherUpdateStatus) (zone : String) :
    WeatherUpdateStatus × UpdateWeatherStateDiscriminants :=
  match s.prep_zone zone with
  | (s', some d) => (s', d)
  | (s', none) =>
    let is_only := s'.is_only_active_zone zone
    let m' := s'.location_statuses.modify_by_zone zone (fun _ => .failed)
    let s'' := { s' with location_statuses := m' }
    if s'.alerts_reviewed && is_only then (s'', .finished) else (s'', .active)

/-- state.rs, WeatherUpdateStatus::mutate: event dispatch of the Active state.
The returned pair is the mutated status (the Rust method mutates in place)
together with the returned discriminant. -/
def WeatherUpdateStatus.mutate {ω φ α : Type} (s : WeatherUpdateStatus)
    (event : WeatherEvent ω φ α) : WeatherUpdateStatus × UpdateWeatherStateDiscriminants :=
  match event with
  | .observationUpdated zone _ _ => s.advance_zone_step zone .observation
  | .forecastUpdated zone _ _ => s.advance_zone_step zone .forecast
  | .alertActivated zone _ _ => s.advance_zone_step zone .alert
  | .alertDeactivated zone _ => s.advance_zone_step zone .alert
  | .alertsReviewed _ =>
    let s' := { s with alerts_reviewed := true }
    (s', if s'.active_zones.isEmpty then .finished else .active)
  | .updateLocationFailed _ zone _ => s.update_zone_failure_for zone
  | .updateStarted _ _ => (s, .active)

/-- The saga state machine (model/weather/update/state.rs,
enum UpdateWeatherState; Quiescent and Finished carry unit structs). -/
inductive UpdateWeatherState where
  | quiescent
  | active (status : WeatherUpdateStatus)
  | finished
deriving DecidableEq

/-- state.rs, UpdateWeatherState::mutate (combining QuiescentWeatherUpdate::mutate,
the Active dispatch, and FinishedWeatherUpdate::mutate). -/
def UpdateWeatherState.mutate {ω φ α : Type} (st : UpdateWeatherState)
    (event : WeatherEvent ω φ α) : UpdateWeatherState :=
  match st with
  | .quiescent =>
    match event with
    | .updateStarted _ zones => .active (WeatherUpdateStatus.new zones)
    | _ => .quiescent
  | .active a =>
    match a.mutate event with
    | (_, .finished) => .finished
    | (a', _) => .active a'
  | .finished => .finished

/-- Replay of an event slice into the saga state (disintegrate StateMutate fold). -/
def UpdateWeatherState.fold {ω φ α : Type} (st : UpdateWeatherState)
    (events : List (WeatherEvent ω φ α)) : UpdateWeatherState :=
  events.foldl UpdateWeatherState.mutate st

/-- The saga state query (model/weather/update/state.rs, struct UpdateWeather). -/
structure UpdateWeather where
  update_id : String
  state : UpdateWeatherState
deriving DecidableEq

/-- state.rs, UpdateWeather::new: starts Quiescent. -/
def UpdateWeather.new (update_id : String) : UpdateWeather :=
  { update_id := update_id, state := .quiescent }

/-- state.rs, StateMutate for UpdateWeather. -/
def UpdateWeather.mutate {ω φ α : Type} (w : UpdateWeather) (event : WeatherEvent ω φ α) :
    UpdateWeather :=
  { w with state := w.state.mutate event }

/-- Domain errors of the saga (model/weather/update/mod.rs, UpdateWeatherError;
infrastructure variants carry their message). -/
inductive UpdateWeatherError where
  | noLocations
  | alreadyStarted (update_id : String) (zones : List String)
  | notStarted (update_id : String) (command : String)
  | finished (update_id : String) (command : String)
  | noaa (msg : String)
  | decision (msg : String)
deriving DecidableEq

/-- model/weather/update/protocol.rs, struct NoteAlertsReviewed. -/
structure NoteAlertsReviewed where
  update_id : String
deriving DecidableEq

/-- protocol.rs, NoteAlertsReviewed::process. -/
def NoteAlertsReviewed.process {ω φ α : Type} (c : NoteAlertsReviewed) (state : UpdateWeather) :
    Except UpdateWeatherError (List (WeatherEvent ω φ α)) :=
  match state.state with
  | .active _ => .ok [.alertsReviewed c.update_id]
  | .quiescent => .error (.notStarted c.update_id "NoteAlertsReviewed")
  | .finished => .error (.finished c.update_id "NoteAlertsReviewed")

/-- model/weather/update/protocol.rs, struct NoteLocationUpdateFailure. -/
structure NoteLocationUpdateFailure where
  update_id : String
  zone : String
  cause : String
deriving DecidableEq

/-- protocol.rs, NoteLocationUpdateFailure::process. -/
def NoteLocationUpdateFailure.process {ω φ α : Type} (c : NoteLocationUpdateFailure)
    (state : UpdateWeather) : Except UpdateWeatherError (List (WeatherEvent ω φ α)) :=
  match state.state with
  | .active _ => .ok [.updateLocationFailed c.update_id c.zone c.cause]
  | .quiescent => .error (.notStarted c.update_id "NoteLocationUpdateFailure")
  | .finished => .error (.finished c.update_id "NoteLocationUpdateFailure")

/-- model/weather/update/protocol.rs, struct StartUpdate (the decision-maker and
service handles carry no decision-relevant data and are omitted). -/
structure StartUpdate where
  update_id : String
  zones : List String
deriving DecidableEq

/-- protocol.rs, StartUpdate::new: rejects an empty zone list. -/
def StartUpdate.new (update_id : String) (zones : List String) :
    Except UpdateWeatherError StartUpdate :=
  if zones.isEmpty then .error .noLocations
  else .ok { update_id := update_id, zones := zones }

/-- A task spawned by StartUpdate::do_start_update (protocol.rs): one observe
and one forecast task per zone, plus the zone-alerts task. -/
inductive SpawnedTask where
  | observeZone (update_id : String) (zone : String)
  | forecastZone (update_id : String) (zone : String)
  | updateZoneAlerts (update_id : String) (zones : List String)
deriving DecidableEq

/-- protocol.rs, StartUpdate::do_start_update / do_spawn_zone_updates /
do_spawn_alerts: the list of tokio tasks spawned, in spawn order. -/
def StartUpdate.do_start_update (c : StartUpdate) : List SpawnedTask :=
  (c.zones.flatMap (fun z => [.observeZone c.update_id z, .forecastZone c.update_id z]))
    ++ [.updateZoneAlerts c.update_id c.zones]

/-- protocol.rs, StartUpdate::process, with the tokio::spawn calls made during
processing recorded in the second component: in the Quiescent branch the source
calls self.do_start_update() before returning the UpdateStarted event. -/
def StartUpdate.process_with_spawns {ω φ α : Type} (c : StartUpdate) (state : UpdateWeather) :
    Except UpdateWeatherError (List (WeatherEvent ω φ α)) × List SpawnedTask :=
  match state.state with
  | .quiescent => (.ok [.updateStarted c.update_id c.zones], c.do_start_update)
  | _ => (.error (.alreadyStarted c.update_id c.zones), [])

/-- protocol.rs, StartUpdate::process: the decision value returned to the engine. -/
def StartUpdate.process {ω φ α : Type} (c : StartUpdate) (state : UpdateWeather) :
    Except UpdateWeatherError (List (WeatherEvent ω φ α)) :=
  (c.process_with_spawns state).1

/-- Zone observation state slice (model/weather/zone/state.rs,
struct LocationZoneWeather). -/
structure LocationZoneWeather (ω : Type) where
  zone : String
  weather : Option ω
deriving DecidableEq

/-- state.rs, LocationZoneWeather::new. -/
def LocationZoneWeather.new {ω : Type} (zone : String) : LocationZoneWeather ω :=
  { zone := zone, weather := none }

/-- state.rs, StateMutate for LocationZoneWeather. -/
def LocationZoneWeather.mutate {ω φ α : Type} (s : LocationZoneWeather ω)
    (event : WeatherEvent ω φ α) : LocationZoneWeather ω :=
  match event with
  | .observationUpdated _ _ weather => { s with weather := some weather }
  | _ => s

/-- Zone forecast state slice (model/weather/zone/state.rs,
struct LocationZoneForecast). -/
structure LocationZoneForecast (φ : Type) where
  zone : String
  forecast : Option φ
deriving DecidableEq

/-- state.rs, LocationZoneForecast::new. -/
def LocationZoneForecast.new {φ : Type} (zone : String) : LocationZoneForecast φ :=
  { zone := zone, forecast := none }

/-- state.rs, StateMutate for LocationZoneForecast. -/
def LocationZoneForecast.mutate {ω φ α : Type} (s : LocationZoneForecast φ)
    (event : WeatherEvent ω φ α) : LocationZoneForecast φ :=
  match event with
  | .forecastUpdated _ _ forecast => { s with forecast := some forecast }
  | _ => s

/-- Zone alert state slice (model/weather/zone/state.rs, struct LocationZoneAlert). -/
structure LocationZoneAlert (α : Type) where
  zone : String
  alert : Option α
deriving DecidableEq

/-- state.rs, LocationZoneAlert::new. -/
def LocationZoneAlert.new {α : Type} (zone : String) : LocationZoneAlert α :=
  { zone := zone, alert := none }

/-- state.rs, LocationZoneAlert::active_alert. -/
def LocationZoneAlert.active_alert {α : Type} (s : LocationZoneAlert α) : Bool :=
  s.alert.isSome

/-- state.rs, StateMutate for LocationZoneAlert. -/
def LocationZoneAlert.mutate {ω φ α : Type} (s : LocationZoneAlert α)
    (event : WeatherEvent ω φ α) : LocationZoneAlert α :=
  match event with
  | .alertActivated _ _ alert => { s with alert := some alert }
  | .alertDeactivated _ _ => { s with alert := none }
  | _ => s

/-- Zone domain error (model/weather/zone/mod.rs, LocationZoneError;
variants carry their message). -/
inductive LocationZoneError where
  | noaa (msg : String)
  | decision (msg : String)
deriving DecidableEq

/-- model/weather/zone/protocol.rs, struct NoteObservation. -/
structure NoteObservation (ω : Type) where
  zone : String
  update_id : String
  weather : ω
deriving DecidableEq

/-- protocol.rs, NoteObservation::process: unconditionally emits ObservationUpdated. -/
def NoteObservation.process {ω φ α : Type} (c : NoteObservation ω)
    (_ : LocationZoneWeather ω) : Except LocationZoneError (List (WeatherEvent ω φ α)) :=
  .ok [.observationUpdated c.zone c.update_id c.weather]

/-- model/weather/zone/protocol.rs, struct NoteForecast. -/
structure NoteForecast (φ : Type) where
  zone : String
  update_id : String
  forecast : φ
deriving DecidableEq

/-- protocol.rs, NoteForecast::process: unconditionally emits ForecastUpdated. -/
def NoteForecast.process {ω φ α : Type} (c : NoteForecast φ)
    (_ : LocationZoneForecast φ) : Except LocationZoneError (List (WeatherEvent ω φ α)) :=
  .ok [.forecastUpdated c.zone c.update_id c.forecast]

/-- model/weather/zone/protocol.rs, struct NoteAlert. -/
structure NoteAlert (α : Type) where
  zone : String
  update_id : String
  alert : Option α
deriving DecidableEq

/-- protocol.rs, NoteAlert::process: compares the alert slice with the command. -/
def NoteAlert.process {ω φ α : Type} (c : NoteAlert α) (state : LocationZoneAlert α) :
    Except LocationZoneError (List (WeatherEvent ω φ α)) :=
  match state.active_alert, c.alert with
  | false, some alert => .ok [.alertActivated c.zone c.update_id alert]
  | true, none => .ok [.alertDeactivated c.zone c.update_id]
  | _, _ => .ok []

/-- Registrar events (model/registrar/protocol.rs, enum RegistrarEvent). -/
inductive RegistrarEvent where
  | forecastZoneAdded (zone : String)
  | forecastZoneRemoved (zone : String)
  | allForecastZonesRemoved
deriving DecidableEq

/-- Registrar state (model/registrar/state.rs, struct Registrar); the HashSet of
zone codes is modelled as a duplicate-free list. -/
structure Registrar where
  location_codes : List String
deriving DecidableEq

/-- state.rs, Registrar::default: empty monitored set. -/
def Registrar.start : Registrar := { location_codes := [] }

/-- state.rs, StateMutate for Registrar (HashSet insert / remove / clear). -/
def Registrar.mutate (r : Registrar) (event : RegistrarEvent) : Registrar :=
  match event with
  | .forecastZoneAdded zone =>
    if r.location_codes.contains zone then r
    else { r with location_codes := r.location_codes ++ [zone] }
  | .forecastZoneRemoved zone =>
    { r with location_codes := r.location_codes.filter (fun c => c != zone) }
  | .allForecastZonesRemoved => { r with location_codes := [] }

/-- Replay of the registrar event history into the registrar state. -/
def Registrar.fold (events : List RegistrarEvent) : Registrar :=
  events.foldl Registrar.mutate Registrar.start

/-- Registrar domain error (model/registrar/mod.rs, RegistrarError). -/
inductive RegistrarError where
  | locationZoneAlreadyMonitored (zone : String)
  | decision (msg : String)
deriving DecidableEq

/-- model/registrar/protocol.rs, struct MonitorForecastZone. -/
structure MonitorForecastZone where
  zone : String
deriving DecidableEq

/-- protocol.rs, MonitorForecastZone::process. -/
def MonitorForecastZone.process (c : MonitorForecastZone) (state : Registrar) :
    Except RegistrarError (List RegistrarEvent) :=
  if state.location_codes.contains c.zone then
    .error (.locationZoneAlreadyMonitored c.zone)
  else
    .ok [.forecastZoneAdded c.zone]

/-- protocol.rs, struct IgnoreForecastZone. -/
structure IgnoreForecastZone where
  zone : String
deriving DecidableEq

/-- protocol.rs, IgnoreForecastZone::process. -/
def IgnoreForecastZone.process (c : IgnoreForecastZone) (state : Registrar) :
    Except RegistrarError (List RegistrarEvent) :=
  if state.location_codes.contains c.zone then
    .ok [.forecastZoneRemoved c.zone]
  else
    .ok []

/-- Proof bookkeeping for the saga-completion theorem: the events of one zone
of a well-formed run that are still unprocessed.  A zone either succeeds with
both ObservationUpdated and ForecastUpdated, or fails with one
UpdateLocationFailed; hence the possible remainders. -/
inductive ZoneRem where
  | bothPending
  | obsPending
  | fcPending
  | failPending
  | doneSucceeded
  | doneFailed
deriving DecidableEq

/-- The LocationUpdateStatus a zone holds after the events NOT in its remainder
have been applied to the default status. -/
def ZoneRem.status : ZoneRem → LocationUpdateStatus
  | .bothPending => .inProgress .empty
  | .obsPending => .inProgress ⟨false, true, false⟩
  | .fcPending => .inProgress ⟨true, false, false⟩
  | .failPending => .inProgress .empty
  | .doneSucceeded => .succeeded
  | .doneFailed => .failed

/-- The still-unprocessed events of one zone, with payloads given by the
functions `w` (weather frames), `f` (forecasts) and `cs` (failure causes). -/
def ZoneRem.events {ω φ α : Type} (u : String) (w : String → ω) (f : String → φ)
    (cs : String → String) (z : String) : ZoneRem → List (WeatherEvent ω φ α)
  | .bothPending => [.observationUpdated z u (w z), .forecastUpdated z u (f z)]
  | .obsPending => [.observationUpdated z u (w z)]
  | .fcPending => [.forecastUpdated z u (f z)]
  | .failPending => [.updateLocationFailed u z (cs z)]
  | .doneSucceeded => []
  | .doneFailed => []

/-- Whether a zone remainder is terminal. -/
def ZoneRem.isDone : ZoneRem → Bool
  | .doneSucceeded => true
  | .doneFailed => true
  | _ => false

/-- The saga status determined by the per-zone remainders `ρ` and the pending
flag `ar` of the AlertsReviewed event. -/
def sagaStateOf (zonesList : List String) (ρ : String → ZoneRem) (ar : Bool) :
    WeatherUpdateStatus :=
  { location_statuses := zonesList.map (fun z => (z, (ρ z).status))
  , alerts_reviewed := !ar }

/-- The multiset (as a canonical list) of still-unprocessed events of a run. -/
def sagaEventsOf {ω φ α : Type} (u : String) (w : String → ω) (f : String → φ)
    (cs : String → String) (zonesList : List String) (ρ : String → ZoneRem) (ar : Bool) :
    List (WeatherEvent ω φ α) :=
  zonesList.flatMap (fun z => (ρ z).events u w f cs z)
    ++ (if ar then [.alertsReviewed u] else [])

/-! ## General lemmas about the embedded operations -/

theorem updateWeatherState_fold_nil {ω φ α : Type} (st : UpdateWeatherState) :
    UpdateWeatherState.fold (ω := ω) (φ := φ) (α := α) st [] = st := rfl

theorem updateWeatherState_fold_cons {ω φ α : Type} (st : UpdateWeatherState)
    (e : WeatherEvent ω φ α) (es : List (WeatherEvent ω φ α)) :
    UpdateWeatherState.fold st (e :: es) = UpdateWeatherState.fold (st.mutate e) es := rfl

theorem updateWeatherState_fold_finished {ω φ α : Type}
    (es : List (WeatherEvent ω φ α)) :
    UpdateWeatherState.fold .finished es = .finished := by
  induction es with
  | nil => rfl
  | cons e es ih => simpa [updateWeatherState_fold_cons, UpdateWeatherState.mutate] using ih

/-! ## C1: quality-controlled aggregation (code inverts its grade comparison) -/

/-- C1: evaluating QuantitativeAggregation::add_detail at concrete inputs.
An aggregation built from a single grade-V reading of value 100, offered a
grade-X reading of value 0, is RESET to the X reading (count 1, sum 0, grade X);
an aggregation built from a grade-X reading, offered a grade-V reading, keeps
the X aggregation unchanged.  This contradicts the claim (and the comment in
frame.rs, lines 257-260) that higher grades replace lower ones and lower-grade
readings are ignored: the Ordering match in add_detail is inverted. -/
theorem c1_add_detail_inverted_quality :
    (QuantitativeAggregation.add_detail
        (QuantitativeAggregation.new ⟨some 100, "wmoUnit", some .V⟩)
        ⟨some 0, "wmoUnit", some .X⟩ =
      { count := 1, value_sum := 0, max_value := 0, min_value := 0
      , unit_code := "wmoUnit", quality_control := .X })
    ∧ (QuantitativeAggregation.add_detail
        (QuantitativeAggregation.new ⟨some 0, "wmoUnit", some .X⟩)
        ⟨some 100, "wmoUnit", some .V⟩ =
      QuantitativeAggregation.new ⟨some 0, "wmoUnit", some .X⟩) :=
  ⟨rfl, rfl⟩

/-! ## C2: the Finished-iff-terminal invariant fails on a post-completion step -/

/-- C2: after UpdateStarted for zones a and b, ObservationUpdated and
ForecastUpdated for a make a Succeeded while b is still InProgress and
alerts_reviewed is false; a further AlertActivated for the already-completed
zone a then drives the whole saga to Finished (prep_zone returns the Finished
discriminant for a completed zone), contradicting the claimed invariant that
Finished is reached only when alerts are reviewed and every zone is terminal. -/
theorem c2_saga_finishes_with_zone_in_progress :
    (UpdateWeatherState.fold (ω := Unit) (φ := Unit) (α := Unit) .quiescent
        [.updateStarted "u" ["a", "b"],
         .observationUpdated "a" "u" (),
         .forecastUpdated "a" "u" ()] =
      .active { location_statuses := [("a", .succeeded), ("b", .inProgress .empty)]
              , alerts_reviewed := false })
    ∧ (UpdateWeatherState.fold (ω := Unit) (φ := Unit) (α := Unit) .quiescent
        [.updateStarted "u" ["a", "b"],
         .observationUpdated "a" "u" (),
         .forecastUpdated "a" "u" (),
         .alertActivated "a" "u" ()] = .finished) :=
  ⟨rfl, rfl⟩

/-! ## C4: zone commands are not gated by the Finished saga state -/

/-- C4 counterexample: the saga for update id u reaches Finished, yet
NoteObservation carrying update id u still returns a non-empty event list
(it never consults the saga state), so not every command with that update_id
is rejected or empty. -/
theorem c4_zone_command_emits_after_finished :
    (UpdateWeatherState.fold (ω := Unit) (φ := Unit) (α := Unit) .quiescent
        [.updateStarted "u" ["a"],
         .observationUpdated "a" "u" (),
         .forecastUpdated "a" "u" (),
         .alertsReviewed "u"] = .finished)
    ∧ (NoteObservation.process (φ := Unit) (α := Unit) ⟨"a", "u", ()⟩
        (LocationZoneWeather.new "a") = .ok [.observationUpdated "a" "u" ()])
    ∧ ([WeatherEvent.observationUpdated "a" "u" ()] ≠ ([] : List (WeatherEvent Unit Unit Unit))) :=
  ⟨rfl, rfl, by decide⟩

/-- C4 amended: once the saga state is Finished, each of the three saga
commands (StartUpdate, NoteAlertsReviewed, NoteLocationUpdateFailure) carrying
that update_id returns a domain error and emits no events; the zone commands
consult only their zone slice and are not gated by the saga state. -/
theorem c4_amended_saga_commands_reject_after_finished {ω φ α : Type}
    (uid zone cause : String) (zones : List String) (w : UpdateWeather)
    (h : w.state = .finished) :
    (StartUpdate.process (ω := ω) (φ := φ) (α := α) ⟨uid, zones⟩ w =
      .error (.alreadyStarted uid zones))
    ∧ (NoteAlertsReviewed.process (ω := ω) (φ := φ) (α := α) ⟨uid⟩ w =
      .error (.finished uid "NoteAlertsReviewed"))
    ∧ (NoteLocationUpdateFailure.process (ω := ω) (φ := φ) (α := α) ⟨uid, zone, cause⟩ w =
      .error (.finished uid "NoteLocationUpdateFailure")) := by
  obtain ⟨qid, st⟩ := w
  simp only at h
  subst h
  exact ⟨rfl, rfl, rfl⟩

/-- Witness for the amended C4 theorem at a concrete Finished state. -/
theorem c4_amended_witness :
    (StartUpdate.process (ω := Unit) (φ := Unit) (α := Unit) ⟨"u", ["a"]⟩ ⟨"q", .finished⟩ =
      .error (.alreadyStarted "u" ["a"]))
    ∧ (NoteAlertsReviewed.process (ω := Unit) (φ := Unit) (α := Unit) ⟨"u"⟩ ⟨"q", .finished⟩ =
      .error (.finished "u" "NoteAlertsReviewed"))
    ∧ (NoteLocationUpdateFailure.process (ω := Unit) (φ := Unit) (α := Unit)
        ⟨"u", "b", "boom"⟩ ⟨"q", .finished⟩ =
      .error (.finished "u" "NoteLocationUpdateFailure")) :=
  c4_amended_saga_commands_reject_after_finished "u" "b" "boom" ["a"] ⟨"q", .finished⟩ rfl

/-! ## C5: registrar MonitorForecastZone -/

/-- C5: against the state derived from any registrar event history, processing
MonitorForecastZone(zone) emits exactly one ForecastZoneAdded event when the
zone is not monitored, and fails with the AlreadyMonitored domain error when it
already is. -/
theorem c5_monitor_forecast_zone (events : List RegistrarEvent) (z : String) :
    MonitorForecastZone.process ⟨z⟩ (Registrar.fold events) =
      (if z ∈ (Registrar.fold events).location_codes
       then .error (.locationZoneAlreadyMonitored z)
       else .ok [.forecastZoneAdded z]) := by
  unfold MonitorForecastZone.process
  by_cases h : z ∈ (Registrar.fold events).location_codes <;> simp [h]

/-! ## C6: NoteAlert transitions -/

/-- C6: NoteAlert emits exactly one AlertActivated when the alert slice has no
active alert and the command carries Some, exactly one AlertDeactivated when
the slice has an active alert and the command carries None, and nothing in the
two remaining cases; replaying the emitted events into the slice and repeating
the identical command emits nothing. -/
theorem c6_note_alert_transitions {ω φ α : Type} (zone uid zq : String)
    (cur al : Option α) :
    (NoteAlert.process (ω := ω) (φ := φ) ⟨zone, uid, al⟩ ⟨zq, cur⟩ =
      .ok (match cur, al with
           | none, some a => [.alertActivated zone uid a]
           | some _, none => [.alertDeactivated zone uid]
           | _, _ => []))
    ∧ (NoteAlert.process (ω := ω) (φ := φ) ⟨zone, uid, al⟩
        ((match cur, al with
          | none, some a => [WeatherEvent.alertActivated zone uid a]
          | some _, none => [WeatherEvent.alertDeactivated zone uid]
          | _, _ => ([] : List (WeatherEvent ω φ α))).foldl
            LocationZoneAlert.mutate ⟨zq, cur⟩) = .ok []) := by
  cases cur <;> cases al <;>
    simp [NoteAlert.process, LocationZoneAlert.mutate, LocationZoneAlert.active_alert]

/-! ## C7: NoteLocationUpdateFailure ignores the started zone list -/

/-- C7 counterexample: from the state derived of the history containing only
UpdateStarted for zone list consisting of a, processing NoteLocationUpdateFailure
for zone b (outside the started list) produces the UpdateLocationFailed event,
refuting the claim that such processing produces no event. -/
theorem c7_failure_outside_started_zones :
    (UpdateWeatherState.fold (ω := Unit) (φ := Unit) (α := Unit) .quiescent
        [.updateStarted "u" ["a"]] = .active (WeatherUpdateStatus.new ["a"]))
    ∧ (NoteLocationUpdateFailure.process (ω := Unit) (φ := Unit) (α := Unit)
        ⟨"u", "b", "provider down"⟩
        ⟨"u", UpdateWeatherState.fold (ω := Unit) (φ := Unit) (α := Unit) .quiescent
            [.updateStarted "u" ["a"]]⟩ =
      .ok [.updateLocationFailed "u" "b" "provider down"])
    ∧ ("b" ∉ ["a"]) :=
  ⟨rfl, rfl, by decide⟩

/-- C7 amended: the saga aggregate does not enforce zone membership:
NoteLocationUpdateFailure emits exactly one UpdateLocationFailed event for ANY
zone whenever the saga state is Active (membership in the started list is
maintained only by the orchestrator, which issues failures solely for started
zones), and returns a domain error in the Quiescent and Finished states. -/
theorem c7_amended_failure_requires_active {ω φ α : Type}
    (uid zone cause qid : String) (st : UpdateWeatherState) :
    NoteLocationUpdateFailure.process (ω := ω) (φ := φ) (α := α) ⟨uid, zone, cause⟩ ⟨qid, st⟩ =
      (match st with
       | .active _ => .ok [.updateLocationFailed uid zone cause]
       | .quiescent => .error (.notStarted uid "NoteLocationUpdateFailure")
       | .finished => .error (.finished uid "NoteLocationUpdateFailure")) := by
  cases st <;> rfl

/-! ## C8: StartUpdate decision -/

/-- C8: StartUpdate construction fails with NoLocations exactly on the empty
zone list; for a non-empty list the command is built, and processing it in the
Quiescent state emits exactly one UpdateStarted event while every other state
is rejected with AlreadyStarted. -/
theorem c8_start_update_decision {ω φ α : Type} (uid qid : String)
    (zones : List String) (st : UpdateWeatherState) :
    (StartUpdate.new uid [] = .error .noLocations)
    ∧ (zones ≠ [] → StartUpdate.new uid zones = .ok ⟨uid, zones⟩)
    ∧ (StartUpdate.process (ω := ω) (φ := φ) (α := α) ⟨uid, zones⟩ ⟨qid, st⟩ =
        match st with
        | .quiescent => .ok [.updateStarted uid zones]
        | _ => .error (.alreadyStarted uid zones)) := by
  refine ⟨rfl, ?_, ?_⟩
  · intro h
    simp [StartUpdate.new, h]
  · cases st <;> rfl

/-- Witness for the C8 theorem at a concrete non-empty zone list. -/
theorem c8_witness :
    (["a"] ≠ ([] : List String))
    ∧ (StartUpdate.new "u" [] = .error .noLocations)
    ∧ (StartUpdate.new "u" ["a"] = .ok ⟨"u", ["a"]⟩)
    ∧ (StartUpdate.process (ω := Unit) (φ := Unit) (α := Unit) ⟨"u", ["a"]⟩ ⟨"q", .quiescent⟩ =
        .ok [.updateStarted "u" ["a"]]) :=
  ⟨by decide,
   (c8_start_update_decision (ω := Unit) (φ := Unit) (α := Unit) "u" "q" ["a"] .quiescent).1,
   (c8_start_update_decision (ω := Unit) (φ := Unit) (α := Unit) "u" "q" ["a"] .quiescent).2.1
     (by decide),
   (c8_start_update_decision (ω := Unit) (φ := Unit) (α := Unit) "u" "q" ["a"] .quiescent).2.2⟩

/-! ## C9: StartUpdate spawns orchestration during process, not post-commit -/

/-- C9: the embedded StartUpdate::process, with its tokio::spawn calls recorded,
shows that in the Quiescent state the command spawns the per-zone observe and
forecast tasks and the alerts task DURING processing (before the decision
engine appends anything), contradicting the claim that process performs no side
effects and orchestration happens only after a successful append. -/
theorem c9_start_update_spawns_during_process :
    (StartUpdate.process_with_spawns (ω := Unit) (φ := Unit) (α := Unit)
        ⟨"u", ["a"]⟩ ⟨"u", .quiescent⟩ =
      (.ok [.updateStarted "u" ["a"]],
       [.observeZone "u" "a", .forecastZone "u" "a", .updateZoneAlerts "u" ["a"]]))
    ∧ (StartUpdate.do_start_update ⟨"u", ["a"]⟩ ≠ []) :=
  ⟨rfl, by decide⟩

/-! ## C10: algebra of LocationUpdateStatus::advance -/

theorem foldl_advance_succeeded (l : List UpdateStep) :
    l.foldl LocationUpdateStatus.advance .succeeded = .succeeded := by
  induction l with
  | nil => rfl
  | cons t l ih => simpa [LocationUpdateStatus.advance] using ih

theorem foldl_advance_failed (l : List UpdateStep) :
    l.foldl LocationUpdateStatus.advance .failed = .failed := by
  induction l with
  | nil => rfl
  | cons t l ih => simpa [LocationUpdateStatus.advance] using ih

theorem updateSteps_insert_comm (c : UpdateSteps) (a b : UpdateStep) :
    (c.insert a).insert b = (c.insert b).insert a := by
  cases a <;> cases b <;> rfl

theorem updateSteps_insert_idem (c : UpdateSteps) (a : UpdateStep) :
    (c.insert a).insert a = c.insert a := by
  cases a <;> rfl

theorem sufficient_insert_mono (c : UpdateSteps) (t : UpdateStep)
    (h : LocationUpdateStatus.sufficient_steps c = true) :
    LocationUpdateStatus.sufficient_steps (c.insert t) = true := by
  cases t <;> simp_all [LocationUpdateStatus.sufficient_steps, UpdateSteps.insert]

theorem sufficient_foldl_insert_mono (l : List UpdateStep) (c : UpdateSteps)
    (h : LocationUpdateStatus.sufficient_steps c = true) :
    LocationUpdateStatus.sufficient_steps (l.foldl UpdateSteps.insert c) = true := by
  induction l generalizing c with
  | nil => exact h
  | cons t l ih => exact ih _ (sufficient_insert_mono c t h)

theorem foldl_advance_cons_normal (l : List UpdateStep) (c : UpdateSteps) (t : UpdateStep) :
    (t :: l).foldl LocationUpdateStatus.advance (.inProgress c) =
      (if LocationUpdateStatus.sufficient_steps (l.foldl UpdateSteps.insert (c.insert t)) = true
       then .succeeded
       else .inProgress (l.foldl UpdateSteps.insert (c.insert t))) := by
  induction l generalizing c t with
  | nil =>
    simp only [List.foldl]
    by_cases h : LocationUpdateStatus.sufficient_steps (c.insert t) = true <;>
      simp [LocationUpdateStatus.advance, h]
  | cons u l ih =>
    show (u :: l).foldl LocationUpdateStatus.advance ((LocationUpdateStatus.inProgress c).advance t)
      = _
    by_cases h : LocationUpdateStatus.sufficient_steps (c.insert t) = true
    · rw [show (LocationUpdateStatus.inProgress c).advance t = .succeeded by
        simp [LocationUpdateStatus.advance, h]]
      rw [foldl_advance_succeeded]
      have h2 : LocationUpdateStatus.sufficient_steps
          (l.foldl UpdateSteps.insert ((c.insert t).insert u)) = true :=
        sufficient_foldl_insert_mono _ _ (sufficient_insert_mono _ _ h)
      simp only [List.foldl]
      rw [if_pos h2]
    · rw [show (LocationUpdateStatus.inProgress c).advance t = .inProgress (c.insert t) by
        simp [LocationUpdateStatus.advance, h]]
      rw [ih (c.insert t) u]
      simp only [List.foldl]

theorem foldl_advance_ip_ne_nil (l : List UpdateStep) (c : UpdateSteps) (h : l ≠ []) :
    l.foldl LocationUpdateStatus.advance (.inProgress c) =
      (if LocationUpdateStatus.sufficient_steps (l.foldl UpdateSteps.insert c) = true
       then .succeeded
       else .inProgress (l.foldl UpdateSteps.insert c)) := by
  cases l with
  | nil => cases h rfl
  | cons t l => exact foldl_advance_cons_normal l c t

/-- C10: the Succeeded and Failed statuses absorb every further step; advancing
twice with the same step equals advancing once; and folding advance over any
permutation of a step list yields the same final status. -/
theorem c10_location_update_status_algebra :
    (∀ step : UpdateStep, LocationUpdateStatus.succeeded.advance step = .succeeded)
    ∧ (∀ step : UpdateStep, LocationUpdateStatus.failed.advance step = .failed)
    ∧ (∀ (s : LocationUpdateStatus) (step : UpdateStep),
        (s.advance step).advance step = s.advance step)
    ∧ (∀ (s : LocationUpdateStatus) (l l' : List UpdateStep), List.Perm l l' →
        l.foldl LocationUpdateStatus.advance s = l'.foldl LocationUpdateStatus.advance s) := by
  refine ⟨fun _ => rfl, fun _ => rfl, ?_, ?_⟩
  · intro s step
    cases s with
    | succeeded => rfl
    | failed => rfl
    | inProgress c =>
      by_cases h : LocationUpdateStatus.sufficient_steps (c.insert step) = true
      · simp [LocationUpdateStatus.advance, h]
      · simp [LocationUpdateStatus.advance, h, updateSteps_insert_idem]
  · intro s l l' hp
    cases s with
    | succeeded => rw [foldl_advance_succeeded, foldl_advance_succeeded]
    | failed => rw [foldl_advance_failed, foldl_advance_failed]
    | inProgress c =>
      cases l with
      | nil =>
        have h0 : l' = [] := hp.nil_eq.symm
        subst h0; rfl
      | cons t l₀ =>
        have hne : l' ≠ [] := by
          intro h0
          subst h0
          exact List.cons_ne_nil t l₀ hp.eq_nil
        rw [foldl_advance_ip_ne_nil _ _ (List.cons_ne_nil t l₀),
            foldl_advance_ip_ne_nil _ _ hne]
        rw [hp.foldl_eq' (fun x _ y _ z => updateSteps_insert_comm z x y) c]

/-- Witness for the C10 theorem: advancing an empty in-progress status with
observation then forecast equals advancing with forecast then observation. -/
theorem c10_witness :
    [UpdateStep.observation, UpdateStep.forecast].foldl LocationUpdateStatus.advance
        (.inProgress .empty) =
      [UpdateStep.forecast, UpdateStep.observation].foldl LocationUpdateStatus.advance
        (.inProgress .empty) :=
  c10_location_update_status_algebra.2.2.2 (.inProgress .empty) _ _ (by decide)

/-! ## C3: saga completion, supporting lemmas on zone-keyed status maps -/

theorem get_by_zone_map (zl : List String) (σ : String → LocationUpdateStatus)
    (z : String) (h : z ∈ zl) :
    LocationStatusMap.get_by_zone (zl.map fun y => (y, σ y)) z = some (σ z) := by
  induction zl with
  | nil => cases h
  | cons a tl ih =>
    by_cases haz : a = z
    · subst haz
      simp [LocationStatusMap.get_by_zone, List.find?]
    · have hb : (a == z) = false := beq_eq_false_iff_ne.mpr haz
      have htl : z ∈ tl := by
        rcases List.mem_cons.mp h with h1 | h1
        · exact absurd h1.symm haz
        · exact h1
      simpa [LocationStatusMap.get_by_zone, List.find?, hb]
        using ih htl

theorem modify_by_zone_map (zl : List String) (σ : String → LocationUpdateStatus)
    (z : String) (f : LocationUpdateStatus → LocationUpdateStatus) :
    LocationStatusMap.modify_by_zone (zl.map fun y => (y, σ y)) z f =
      zl.map (fun y => (y, if y = z then f (σ y) else σ y)) := by
  simp only [LocationStatusMap.modify_by_zone, List.map_map]
  apply List.map_congr_left
  intro y _
  by_cases h : y = z
  · subst h; simp
  · simp [Function.comp, beq_eq_false_iff_ne.mpr h, h]

theorem is_only_active_zone_map (zl : List String) (σ : String → LocationUpdateStatus)
    (b : Bool) (z : String) (h : z ∈ zl) :
    (WeatherUpdateStatus.is_only_active_zone ⟨zl.map fun y => (y, σ y), b⟩ z = true)
    ↔ ((σ z).is_active = true ∧ ∀ y ∈ zl, y ≠ z → (σ y).is_completed = true) := by
  unfold WeatherUpdateStatus.is_only_active_zone WeatherUpdateStatus.status_for
  rw [show (⟨zl.map fun y => (y, σ y), b⟩ : WeatherUpdateStatus).location_statuses
      = zl.map fun y => (y, σ y) from rfl]
  rw [get_by_zone_map zl σ z h]
  simp only [List.all_eq_true, List.mem_filter, bne_iff_ne, Option.map_some,
    Option.getD_some, Bool.and_eq_true, List.mem_map]
  constructor
  · rintro ⟨ha, hall⟩
    refine ⟨ha, fun y hy hyz => ?_⟩
    exact hall (y, σ y) ⟨⟨y, hy, rfl⟩, hyz⟩
  · rintro ⟨ha, hall⟩
    refine ⟨ha, ?_⟩
    rintro p ⟨⟨y2, hy2, heq⟩, hyz⟩
    subst heq
    exact hall y2 hy2 hyz

theorem active_zones_isEmpty_map (zl : List String) (σ : String → LocationUpdateStatus)
    (b : Bool) :
    ((WeatherUpdateStatus.active_zones ⟨zl.map fun y => (y, σ y), b⟩).isEmpty = true)
    ↔ ∀ y ∈ zl, (σ y).is_in_progress = false := by
  unfold WeatherUpdateStatus.active_zones
  simp [List.isEmpty_iff, List.filter_eq_nil_iff]

theorem zoneRem_status_completed (r : ZoneRem) :
    r.status.is_completed = r.isDone := by
  cases r <;> rfl

theorem zoneRem_status_in_progress (r : ZoneRem) :
    r.status.is_in_progress = !r.isDone := by
  cases r <;> rfl

theorem zoneRem_events_nil_iff {ω φ α : Type} (u : String) (w : String → ω)
    (f : String → φ) (cs : String → String) (z : String) (r : ZoneRem) :
    (ZoneRem.events (ω := ω) (φ := φ) (α := α) u w f cs z r = []) ↔ r.isDone = true := by
  cases r <;> simp [ZoneRem.events, ZoneRem.isDone]

theorem sagaEventsOf_eq_nil_iff {ω φ α : Type} (u : String) (w : String → ω)
    (f : String → φ) (cs : String → String) (zl : List String) (ρ : String → ZoneRem)
    (ar : Bool) :
    (sagaEventsOf (ω := ω) (φ := φ) (α := α) u w f cs zl ρ ar = []) ↔
      (ar = false ∧ ∀ y ∈ zl, (ρ y).isDone = true) := by
  unfold sagaEventsOf
  cases ar <;>
    simp [List.append_eq_nil, List.flatMap_eq_nil_iff, zoneRem_events_nil_iff]

theorem perm_nil_iff {β : Type} {l L : List β} (h : List.Perm l L) :
    l = [] ↔ L = [] := by
  constructor
  · intro h0; subst h0; exact h.nil_eq.symm
  · intro h0; subst h0; exact h.symm.nil_eq.symm

theorem flatMap_congr_mem {β : Type} (l : List String) (F G : String → List β)
    (h : ∀ y ∈ l, F y = G y) : l.flatMap F = l.flatMap G := by
  induction l with
  | nil => rfl
  | cons a tl ih =>
    simp only [List.flatMap_cons]
    rw [h a (List.mem_cons_self a tl), ih (fun y hy => h y (List.mem_cons_of_mem a hy))]

theorem flatMap_update_perm {β : Type} (zl : List String) (hnd : zl.Nodup) (z : String)
    (hz : z ∈ zl) (F G : String → List β) (e : β)
    (hagree : ∀ y, y ≠ z → F y = G y)
    (hcons : List.Perm (F z) (e :: G z)) :
    List.Perm (zl.flatMap F) (e :: zl.flatMap G) := by
  induction zl with
  | nil => cases hz
  | cons a tl ih =>
    simp only [List.flatMap_cons]
    rcases List.mem_cons.mp hz with hz1 | htl
    · subst hz1
      have hza : z ∉ tl := (List.nodup_cons.mp hnd).1
      have htl_eq : tl.flatMap F = tl.flatMap G :=
        flatMap_congr_mem tl F G (fun y hy => hagree y (fun hyz => hza (hyz ▸ hy)))
      rw [htl_eq]
      exact hcons.append_right (tl.flatMap G)
    · have haz : a ≠ z := by
        rintro rfl
        exact (List.nodup_cons.mp hnd).1 htl
      rw [hagree a haz]
      have hstep := ih (List.nodup_cons.mp hnd).2 htl
      exact (hstep.append_left (G a)).trans List.perm_middle

theorem prep_zone_map (zl : List String) (σ : String → LocationUpdateStatus)
    (b : Bool) (z : String) (hz : z ∈ zl) (hnc : (σ z).is_completed = false) :
    WeatherUpdateStatus.prep_zone ⟨zl.map fun y => (y, σ y), b⟩ z =
      (⟨zl.map fun y => (y, σ y), b⟩, none) := by
  unfold WeatherUpdateStatus.prep_zone WeatherUpdateStatus.status_for
  rw [show (⟨zl.map fun y => (y, σ y), b⟩ : WeatherUpdateStatus).location_statuses
      = zl.map fun y => (y, σ y) from rfl]
  rw [get_by_zone_map zl σ z hz]
  simp [hnc]

theorem advance_zone_step_map (zl : List String) (σ : String → LocationUpdateStatus)
    (b : Bool) (z : String) (step : UpdateStep) (hz : z ∈ zl)
    (hnc : (σ z).is_completed = false) :
    WeatherUpdateStatus.advance_zone_step ⟨zl.map fun y => (y, σ y), b⟩ z step =
      (⟨zl.map fun y => (y, if y = z then (σ y).advance step else σ y), b⟩,
       if b && WeatherUpdateStatus.is_only_active_zone ⟨zl.map fun y => (y, σ y), b⟩ z
          && ((σ z).advance step).is_completed
       then .finished else .active) := by
  unfold WeatherUpdateStatus.advance_zone_step
  rw [prep_zone_map zl σ b z hz hnc]
  have hget := get_by_zone_map zl (fun y => if y = z then (σ y).advance step else σ y) z hz
  simp only at hget
  simp only [modify_by_zone_map, hget]
  simp
  split <;> rfl

theorem update_zone_failure_map (zl : List String) (σ : String → LocationUpdateStatus)
    (b : Bool) (z : String) (hz : z ∈ zl) (hnc : (σ z).is_completed = false) :
    WeatherUpdateStatus.update_zone_failure_for ⟨zl.map fun y => (y, σ y), b⟩ z =
      (⟨zl.map fun y => (y, if y = z then .failed else σ y), b⟩,
       if b && WeatherUpdateStatus.is_only_active_zone ⟨zl.map fun y => (y, σ y), b⟩ z
       then .finished else .active) := by
  unfold WeatherUpdateStatus.update_zone_failure_for
  rw [prep_zone_map zl σ b z hz hnc]
  simp only [modify_by_zone_map]
  split <;> rfl

theorem mutate_active_eq {ω φ α : Type} (s : WeatherUpdateStatus) (e : WeatherEvent ω φ α) :
    UpdateWeatherState.mutate (.active s) e =
      (if (s.mutate e).2 = .finished then .finished else .active (s.mutate e).1) := by
  unfold UpdateWeatherState.mutate
  rcases hm : s.mutate e with ⟨a2, d⟩
  cases d <;> simp [hm]

theorem status_mutate_observation {ω φ α : Type} (s : WeatherUpdateStatus)
    (z uid : String) (wp : ω) :
    s.mutate (ω := ω) (φ := φ) (α := α) (.observationUpdated z uid wp) =
      s.advance_zone_step z .observation := rfl

theorem status_mutate_forecast {ω φ α : Type} (s : WeatherUpdateStatus)
    (z uid : String) (fp : φ) :
    s.mutate (ω := ω) (φ := φ) (α := α) (.forecastUpdated z uid fp) =
      s.advance_zone_step z .forecast := rfl

theorem status_mutate_location_failed {ω φ α : Type} (s : WeatherUpdateStatus)
    (z uid cause : String) :
    s.mutate (ω := ω) (φ := φ) (α := α) (.updateLocationFailed uid z cause) =
      s.update_zone_failure_for z := rfl

theorem status_mutate_alerts_reviewed {ω φ α : Type} (s : WeatherUpdateStatus) (uid : String) :
    s.mutate (ω := ω) (φ := φ) (α := α) (.alertsReviewed uid) =
      ({ s with alerts_reviewed := true },
       if ({ s with alerts_reviewed := true } : WeatherUpdateStatus).active_zones.isEmpty
       then .finished else .active) := rfl

theorem rest_nil_all_done {ω φ α : Type} (u : String) (w : String → ω) (f : String → φ)
    (cs : String → String) (zl : List String) (ρ2 : String → ZoneRem) (ar : Bool)
    (rest : List (WeatherEvent ω φ α))
    (hrest : List.Perm rest (sagaEventsOf u w f cs zl ρ2 ar)) (h0 : rest = []) :
    ar = false ∧ ∀ y ∈ zl, (ρ2 y).isDone = true :=
  (sagaEventsOf_eq_nil_iff u w f cs zl ρ2 ar).mp ((perm_nil_iff hrest).mp h0)

theorem rest_ne_nil_of_pending {ω φ α : Type} (u : String) (w : String → ω) (f : String → φ)
    (cs : String → String) (zl : List String) (ρ2 : String → ZoneRem) (ar : Bool)
    (rest : List (WeatherEvent ω φ α)) (z : String) (hz : z ∈ zl)
    (hpend : (ρ2 z).isDone = false)
    (hrest : List.Perm rest (sagaEventsOf u w f cs zl ρ2 ar)) : rest ≠ [] := by
  intro h0
  have hall := rest_nil_all_done u w f cs zl ρ2 ar rest hrest h0
  rw [hall.2 z hz] at hpend
  cases hpend

theorem saga_fold_aux {ω φ α : Type} (u : String) (w : String → ω) (f : String → φ)
    (cs : String → String) (zl : List String) (hnd : zl.Nodup) :
    ∀ (rest : List (WeatherEvent ω φ α)) (ar : Bool) (ρ : String → ZoneRem),
      List.Perm rest (sagaEventsOf u w f cs zl ρ ar) →
      rest ≠ [] →
      UpdateWeatherState.fold (.active (sagaStateOf zl ρ ar)) rest = .finished := by
  intro rest
  induction rest with
  | nil => intro ar ρ _ hne; exact absurd rfl hne
  | cons e rest ih =>
    intro ar ρ hperm _
    have he : e ∈ sagaEventsOf (ω := ω) (φ := φ) (α := α) u w f cs zl ρ ar :=
      hperm.subset (List.mem_cons_self e rest)
    unfold sagaEventsOf at he
    have hsa : sagaStateOf zl ρ ar =
        (⟨zl.map fun y => (y, (ρ y).status), !ar⟩ : WeatherUpdateStatus) := rfl
    rcases List.mem_append.mp he with hfm | har
    · -- a zone event
      obtain ⟨z, hz, hein⟩ := List.mem_flatMap.mp hfm
      cases hρ : ρ z with
      | doneSucceeded => rw [hρ] at hein; simp [ZoneRem.events] at hein
      | doneFailed => rw [hρ] at hein; simp [ZoneRem.events] at hein
      | bothPending =>
        rw [hρ] at hein
        simp only [ZoneRem.events, List.mem_cons, List.not_mem_nil, or_false] at hein
        have hnc : ((ρ z).status).is_completed = false := by rw [hρ]; rfl
        rcases hein with he1 | he1
        all_goals subst he1
        · -- observation of a fresh zone: zone remainder becomes fcPending
          have hpermL : List.Perm (sagaEventsOf (ω := ω) (φ := φ) (α := α) u w f cs zl ρ ar)
              (WeatherEvent.observationUpdated z u (w z) ::
                sagaEventsOf u w f cs zl (fun y2 => if y2 = z then ZoneRem.fcPending else ρ y2) ar) := by
            unfold sagaEventsOf
            have hfm2 := flatMap_update_perm (β := WeatherEvent ω φ α) zl hnd z hz
              (fun y => (ρ y).events u w f cs y)
              (fun y => ((fun y2 => if y2 = z then ZoneRem.fcPending else ρ y2) y).events u w f cs y)
              (WeatherEvent.observationUpdated z u (w z))
              (fun y hyz => by simp [hyz])
              (by dsimp only; rw [hρ, if_pos rfl]; exact List.Perm.refl _)
            exact hfm2.append_right _
          have hrest : List.Perm rest
              (sagaEventsOf u w f cs zl (fun y2 => if y2 = z then ZoneRem.fcPending else ρ y2) ar) :=
            (hperm.trans hpermL).cons_inv
          rw [updateWeatherState_fold_cons, mutate_active_eq, status_mutate_observation, hsa,
            advance_zone_step_map zl (fun y => (ρ y).status) (!ar) z .observation hz hnc]
          dsimp only
          rw [show (((ρ z).status).advance UpdateStep.observation).is_completed = false by
            rw [hρ]; rfl]
          simp only [Bool.and_false, Bool.false_eq_true, if_false]
          have hmap : (zl.map fun y => (y, if y = z then ((ρ y).status).advance UpdateStep.observation else (ρ y).status))
              = zl.map (fun y => (y, ((fun y2 => if y2 = z then ZoneRem.fcPending else ρ y2) y).status)) := by
            apply List.map_congr_left
            intro y _
            by_cases hyz : y = z
            · subst hyz
              simp [hρ, ZoneRem.status, LocationUpdateStatus.advance, UpdateSteps.insert,
                UpdateSteps.empty, LocationUpdateStatus.sufficient_steps]
            · simp [hyz]
          simp only [reduceCtorEq, if_false]
          rw [hmap]
          exact ih ar (fun y2 => if y2 = z then ZoneRem.fcPending else ρ y2) hrest
            (rest_ne_nil_of_pending u w f cs zl _ ar rest z hz (by simp [ZoneRem.isDone]) hrest)
        · -- forecast of a fresh zone: zone remainder becomes obsPending
          have hpermL : List.Perm (sagaEventsOf (ω := ω) (φ := φ) (α := α) u w f cs zl ρ ar)
              (WeatherEvent.forecastUpdated z u (f z) ::
                sagaEventsOf u w f cs zl (fun y2 => if y2 = z then ZoneRem.obsPending else ρ y2) ar) := by
            unfold sagaEventsOf
            have hfm2 := flatMap_update_perm (β := WeatherEvent ω φ α) zl hnd z hz
              (fun y => (ρ y).events u w f cs y)
              (fun y => ((fun y2 => if y2 = z then ZoneRem.obsPending else ρ y2) y).events u w f cs y)
              (WeatherEvent.forecastUpdated z u (f z))
              (fun y hyz => by simp [hyz])
              (by dsimp only; rw [hρ, if_pos rfl]; exact List.Perm.swap _ _ _)
            exact hfm2.append_right _
          have hrest : List.Perm rest
              (sagaEventsOf u w f cs zl (fun y2 => if y2 = z then ZoneRem.obsPending else ρ y2) ar) :=
            (hperm.trans hpermL).cons_inv
          rw [updateWeatherState_fold_cons, mutate_active_eq, status_mutate_forecast, hsa,
            advance_zone_step_map zl (fun y => (ρ y).status) (!ar) z .forecast hz hnc]
          dsimp only
          rw [show (((ρ z).status).advance UpdateStep.forecast).is_completed = false by
            rw [hρ]; rfl]
          simp only [Bool.and_false, Bool.false_eq_true, if_false]
          have hmap : (zl.map fun y => (y, if y = z then ((ρ y).status).advance UpdateStep.forecast else (ρ y).status))
              = zl.map (fun y => (y, ((fun y2 => if y2 = z then ZoneRem.obsPending else ρ y2) y).status)) := by
            apply List.map_congr_left
            intro y _
            by_cases hyz : y = z
            · subst hyz
              simp [hρ, ZoneRem.status, LocationUpdateStatus.advance, UpdateSteps.insert,
                UpdateSteps.empty, LocationUpdateStatus.sufficient_steps]
            · simp [hyz]
          simp only [reduceCtorEq, if_false]
          rw [hmap]
          exact ih ar (fun y2 => if y2 = z then ZoneRem.obsPending else ρ y2) hrest
            (rest_ne_nil_of_pending u w f cs zl _ ar rest z hz (by simp [ZoneRem.isDone]) hrest)
      | obsPending =>
        rw [hρ] at hein
        simp only [ZoneRem.events, List.mem_cons, List.not_mem_nil, or_false] at hein
        subst hein
        have hnc : ((ρ z).status).is_completed = false := by rw [hρ]; rfl
        have hpermL : List.Perm (sagaEventsOf (ω := ω) (φ := φ) (α := α) u w f cs zl ρ ar)
            (WeatherEvent.observationUpdated z u (w z) ::
              sagaEventsOf u w f cs zl (fun y2 => if y2 = z then ZoneRem.doneSucceeded else ρ y2) ar) := by
          unfold sagaEventsOf
          have hfm2 := flatMap_update_perm (β := WeatherEvent ω φ α) zl hnd z hz
            (fun y => (ρ y).events u w f cs y)
            (fun y => ((fun y2 => if y2 = z then ZoneRem.doneSucceeded else ρ y2) y).events u w f cs y)
            (WeatherEvent.observationUpdated z u (w z))
            (fun y hyz => by simp [hyz])
            (by dsimp only; rw [hρ, if_pos rfl]; exact List.Perm.refl _)
          exact hfm2.append_right _
        have hrest : List.Perm rest
            (sagaEventsOf u w f cs zl (fun y2 => if y2 = z then ZoneRem.doneSucceeded else ρ y2) ar) :=
          (hperm.trans hpermL).cons_inv
        rw [updateWeatherState_fold_cons, mutate_active_eq, status_mutate_observation, hsa,
          advance_zone_step_map zl (fun y => (ρ y).status) (!ar) z .observation hz hnc]
        dsimp only
        rw [show (((ρ z).status).advance UpdateStep.observation).is_completed = true by
          rw [hρ]; rfl]
        simp only [Bool.and_true]
        by_cases hc : (!ar && WeatherUpdateStatus.is_only_active_zone
            ⟨zl.map fun y => (y, (ρ y).status), !ar⟩ z) = true
        · simp [hc, updateWeatherState_fold_finished]
        · rw [Bool.not_eq_true] at hc
          simp only [hc, Bool.false_eq_true, if_false, reduceCtorEq]
          have hmap : (zl.map fun y => (y, if y = z then ((ρ y).status).advance UpdateStep.observation else (ρ y).status))
              = zl.map (fun y => (y, ((fun y2 => if y2 = z then ZoneRem.doneSucceeded else ρ y2) y).status)) := by
            apply List.map_congr_left
            intro y _
            by_cases hyz : y = z
            · subst hyz
              simp [hρ, ZoneRem.status, LocationUpdateStatus.advance, UpdateSteps.insert,
                UpdateSteps.empty, LocationUpdateStatus.sufficient_steps]
            · simp [hyz]
          rw [hmap]
          have habs : rest ≠ [] := by
            intro h0
            obtain ⟨har0, hdone⟩ := rest_nil_all_done u w f cs zl _ ar rest hrest h0
            subst har0
            simp only [Bool.not_false, Bool.true_and] at hc
            have honly : WeatherUpdateStatus.is_only_active_zone
                ⟨zl.map fun y => (y, (ρ y).status), true⟩ z = true := by
              rw [is_only_active_zone_map zl (fun y => (ρ y).status) true z hz]
              refine ⟨by rw [hρ]; rfl, fun y hy hyz => ?_⟩
              rw [zoneRem_status_completed]
              have hd := hdone y hy
              simpa [hyz] using hd
            rw [honly] at hc
            cases hc
          exact ih ar (fun y2 => if y2 = z then ZoneRem.doneSucceeded else ρ y2) hrest habs
      | fcPending =>
        rw [hρ] at hein
        simp only [ZoneRem.events, List.mem_cons, List.not_mem_nil, or_false] at hein
        subst hein
        have hnc : ((ρ z).status).is_completed = false := by rw [hρ]; rfl
        have hpermL : List.Perm (sagaEventsOf (ω := ω) (φ := φ) (α := α) u w f cs zl ρ ar)
            (WeatherEvent.forecastUpdated z u (f z) ::
              sagaEventsOf u w f cs zl (fun y2 => if y2 = z then ZoneRem.doneSucceeded else ρ y2) ar) := by
          unfold sagaEventsOf
          have hfm2 := flatMap_update_perm (β := WeatherEvent ω φ α) zl hnd z hz
            (fun y => (ρ y).events u w f cs y)
            (fun y => ((fun y2 => if y2 = z then ZoneRem.doneSucceeded else ρ y2) y).events u w f cs y)
            (WeatherEvent.forecastUpdated z u (f z))
            (fun y hyz => by simp [hyz])
            (by dsimp only; rw [hρ, if_pos rfl]; exact List.Perm.refl _)
          exact hfm2.append_right _
        have hrest : List.Perm rest
            (sagaEventsOf u w f cs zl (fun y2 => if y2 = z then ZoneRem.doneSucceeded else ρ y2) ar) :=
          (hperm.trans hpermL).cons_inv
        rw [updateWeatherState_fold_cons, mutate_active_eq, status_mutate_forecast, hsa,
          advance_zone_step_map zl (fun y => (ρ y).status) (!ar) z .forecast hz hnc]
        dsimp only
        rw [show (((ρ z).status).advance UpdateStep.forecast).is_completed = true by
          rw [hρ]; rfl]
        simp only [Bool.and_true]
        by_cases hc : (!ar && WeatherUpdateStatus.is_only_active_zone
            ⟨zl.map fun y => (y, (ρ y).status), !ar⟩ z) = true
        · simp [hc, updateWeatherState_fold_finished]
        · rw [Bool.not_eq_true] at hc
          simp only [hc, Bool.false_eq_true, if_false, reduceCtorEq]
          have hmap : (zl.map fun y => (y, if y = z then ((ρ y).status).advance UpdateStep.forecast else (ρ y).status))
              = zl.map (fun y => (y, ((fun y2 => if y2 = z then ZoneRem.doneSucceeded else ρ y2) y).status)) := by
            apply List.map_congr_left
            intro y _
            by_cases hyz : y = z
            · subst hyz
              simp [hρ, ZoneRem.status, LocationUpdateStatus.advance, UpdateSteps.insert,
                UpdateSteps.empty, LocationUpdateStatus.sufficient_steps]
            · simp [hyz]
          rw [hmap]
          have habs : rest ≠ [] := by
            intro h0
            obtain ⟨har0, hdone⟩ := rest_nil_all_done u w f cs zl _ ar rest hrest h0
            subst har0
            simp only [Bool.not_false, Bool.true_and] at hc
            have honly : WeatherUpdateStatus.is_only_active_zone
                ⟨zl.map fun y => (y, (ρ y).status), true⟩ z = true := by
              rw [is_only_active_zone_map zl (fun y => (ρ y).status) true z hz]
              refine ⟨by rw [hρ]; rfl, fun y hy hyz => ?_⟩
              rw [zoneRem_status_completed]
              have hd := hdone y hy
              simpa [hyz] using hd
            rw [honly] at hc
            cases hc
          exact ih ar (fun y2 => if y2 = z then ZoneRem.doneSucceeded else ρ y2) hrest habs
      | failPending =>
        rw [hρ] at hein
        simp only [ZoneRem.events, List.mem_cons, List.not_mem_nil, or_false] at hein
        subst hein
        have hnc : ((ρ z).status).is_completed = false := by rw [hρ]; rfl
        have hpermL : List.Perm (sagaEventsOf (ω := ω) (φ := φ) (α := α) u w f cs zl ρ ar)
            (WeatherEvent.updateLocationFailed u z (cs z) ::
              sagaEventsOf u w f cs zl (fun y2 => if y2 = z then ZoneRem.doneFailed else ρ y2) ar) := by
          unfold sagaEventsOf
          have hfm2 := flatMap_update_perm (β := WeatherEvent ω φ α) zl hnd z hz
            (fun y => (ρ y).events u w f cs y)
            (fun y => ((fun y2 => if y2 = z then ZoneRem.doneFailed else ρ y2) y).events u w f cs y)
            (WeatherEvent.updateLocationFailed u z (cs z))
            (fun y hyz => by simp [hyz])
            (by dsimp only; rw [hρ, if_pos rfl]; exact List.Perm.refl _)
          exact hfm2.append_right _
        have hrest : List.Perm rest
            (sagaEventsOf u w f cs zl (fun y2 => if y2 = z then ZoneRem.doneFailed else ρ y2) ar) :=
          (hperm.trans hpermL).cons_inv
        rw [updateWeatherState_fold_cons, mutate_active_eq, status_mutate_location_failed, hsa,
          update_zone_failure_map zl (fun y => (ρ y).status) (!ar) z hz hnc]
        dsimp only
        by_cases hc : (!ar && WeatherUpdateStatus.is_only_active_zone
            ⟨zl.map fun y => (y, (ρ y).status), !ar⟩ z) = true
        · simp [hc, updateWeatherState_fold_finished]
        · rw [Bool.not_eq_true] at hc
          simp only [hc, Bool.false_eq_true, if_false, reduceCtorEq]
          have hmap : (zl.map fun y => (y, if y = z then LocationUpdateStatus.failed else (ρ y).status))
              = zl.map (fun y => (y, ((fun y2 => if y2 = z then ZoneRem.doneFailed else ρ y2) y).status)) := by
            apply List.map_congr_left
            intro y _
            by_cases hyz : y = z
            · subst hyz
              simp [ZoneRem.status]
            · simp [hyz]
          rw [hmap]
          have habs : rest ≠ [] := by
            intro h0
            obtain ⟨har0, hdone⟩ := rest_nil_all_done u w f cs zl _ ar rest hrest h0
            subst har0
            simp only [Bool.not_false, Bool.true_and] at hc
            have honly : WeatherUpdateStatus.is_only_active_zone
                ⟨zl.map fun y => (y, (ρ y).status), true⟩ z = true := by
              rw [is_only_active_zone_map zl (fun y => (ρ y).status) true z hz]
              refine ⟨by rw [hρ]; rfl, fun y hy hyz => ?_⟩
              rw [zoneRem_status_completed]
              have hd := hdone y hy
              simpa [hyz] using hd
            rw [honly] at hc
            cases hc
          exact ih ar (fun y2 => if y2 = z then ZoneRem.doneFailed else ρ y2) hrest habs
    · -- the AlertsReviewed event
      cases ar with
      | false => simp at har
      | true =>
        simp at har
        subst har
        have hrest : List.Perm rest (sagaEventsOf u w f cs zl ρ false) := by
          have hpermL : List.Perm (sagaEventsOf (ω := ω) (φ := φ) (α := α) u w f cs zl ρ true)
              (WeatherEvent.alertsReviewed u :: sagaEventsOf u w f cs zl ρ false) := by
            unfold sagaEventsOf
            simp only [eq_self_iff_true, if_true, Bool.false_eq_true, if_false, List.append_nil]
            exact List.perm_append_comm
          exact (hperm.trans hpermL).cons_inv
        rw [updateWeatherState_fold_cons, mutate_active_eq, status_mutate_alerts_reviewed]
        dsimp only
        rw [show ({ sagaStateOf zl ρ true with alerts_reviewed := true } : WeatherUpdateStatus)
            = sagaStateOf zl ρ false from rfl]
        by_cases hic : (sagaStateOf zl ρ false).active_zones.isEmpty = true
        · simp [hic, updateWeatherState_fold_finished]
        · rw [Bool.not_eq_true] at hic
          simp only [hic, Bool.false_eq_true, if_false, reduceCtorEq]
          have habs : rest ≠ [] := by
            intro h0
            obtain ⟨_, hdone⟩ := rest_nil_all_done u w f cs zl ρ false rest hrest h0
            have hemp : (sagaStateOf zl ρ false).active_zones.isEmpty = true := by
              apply (active_zones_isEmpty_map zl (fun y => (ρ y).status) (!false)).mpr
              intro y hy
              rw [zoneRem_status_in_progress]
              simp [hdone y hy]
            rw [hemp] at hic
            cases hic
          exact ih false ρ hrest habs

theorem foldl_insert_start (zl : List String) (acc : LocationStatusMap) :
    zl.foldl (fun m z => LocationStatusMap.insert m z LocationUpdateStatus.start) acc =
      acc ++ zl.map (fun z => (z, LocationUpdateStatus.start)) := by
  induction zl generalizing acc with
  | nil => simp
  | cons a tl ih =>
    simp only [List.foldl, List.map_cons]
    rw [ih]
    simp [LocationStatusMap.insert]

/-- C3: for every non-empty duplicate-free zone list, folding UpdateStarted and
then ANY permutation of the events consisting of, per zone, either both
ObservationUpdated and ForecastUpdated or one UpdateLocationFailed, plus one
AlertsReviewed, drives the saga from Quiescent to Finished; moreover advancing
any in-progress step set with Observation and Forecast alone yields Succeeded,
so the Alert step is never required for a zone to succeed. -/
theorem c3_saga_completion {ω φ α : Type} (u : String) (w : String → ω) (f : String → φ)
    (cs : String → String) (zl : List String) (outcome : String → Bool)
    (hne : zl ≠ []) (hnd : zl.Nodup) (rest : List (WeatherEvent ω φ α))
    (hperm : List.Perm rest
      ((zl.flatMap fun z =>
          if outcome z
          then [WeatherEvent.observationUpdated z u (w z), WeatherEvent.forecastUpdated z u (f z)]
          else [WeatherEvent.updateLocationFailed u z (cs z)])
        ++ [WeatherEvent.alertsReviewed u])) :
    (UpdateWeatherState.fold .quiescent (WeatherEvent.updateStarted u zl :: rest) = .finished)
    ∧ (∀ c : UpdateSteps,
        ((LocationUpdateStatus.inProgress c).advance UpdateStep.observation).advance
          UpdateStep.forecast = .succeeded) := by
  constructor
  · have hcanon : (zl.flatMap fun z =>
        if outcome z
        then [WeatherEvent.observationUpdated z u (w z), WeatherEvent.forecastUpdated z u (f z)]
        else [WeatherEvent.updateLocationFailed u z (cs z)]) =
        zl.flatMap (fun z =>
          ZoneRem.events (ω := ω) (φ := φ) (α := α) u w f cs z
            ((fun y => if outcome y then ZoneRem.bothPending else ZoneRem.failPending) z)) := by
      apply flatMap_congr_mem
      intro y _
      cases houty : outcome y <;> simp [houty, ZoneRem.events]
    have hperm2 : List.Perm rest (sagaEventsOf (ω := ω) (φ := φ) (α := α) u w f cs zl
        (fun y => if outcome y then ZoneRem.bothPending else ZoneRem.failPending) true) := by
      unfold sagaEventsOf
      simp only [eq_self_iff_true, if_true]
      rw [← hcanon]
      exact hperm
    have hne2 : rest ≠ [] := by
      intro h0
      have h1 := (perm_nil_iff hperm).mp h0
      simp [List.append_eq_nil] at h1
    have hstart : UpdateWeatherState.mutate (ω := ω) (φ := φ) (α := α) .quiescent
        (.updateStarted u zl) = .active (WeatherUpdateStatus.new zl) := rfl
    have hnewstate : WeatherUpdateStatus.new zl =
        sagaStateOf zl (fun y => if outcome y then ZoneRem.bothPending else ZoneRem.failPending)
          true := by
      unfold WeatherUpdateStatus.new sagaStateOf
      rw [foldl_insert_start]
      simp only [List.nil_append]
      rw [show (!true) = false from rfl]
      congr 1
      apply List.map_congr_left
      intro y _
      cases houty : outcome y <;> simp [houty, ZoneRem.status, LocationUpdateStatus.start]
    rw [updateWeatherState_fold_cons, hstart, hnewstate]
    exact saga_fold_aux u w f cs zl hnd rest true _ hperm2 hne2
  · rintro ⟨o, f2, a⟩
    cases o <;> cases f2 <;> cases a <;> rfl

/-- Witness for the C3 theorem: a concrete two-zone run, zone a succeeding,
zone b failing, with the remaining events folded in reversed order. -/
theorem c3_witness :
    UpdateWeatherState.fold (ω := Unit) (φ := Unit) (α := Unit) .quiescent
      [.updateStarted "u" ["a", "b"],
       .alertsReviewed "u",
       .updateLocationFailed "u" "b" "err",
       .forecastUpdated "a" "u" (),
       .observationUpdated "a" "u" ()] = .finished :=
  (c3_saga_completion "u" (fun _ => ()) (fun _ => ()) (fun _ => "err") ["a", "b"]
    (fun z => z == "a") (by decide) (by decide)
    [.alertsReviewed "u",
     .updateLocationFailed "u" "b" "err",
     .forecastUpdated "a" "u" (),
     .observationUpdated "a" "u" ()] (by decide)).1
